import Mathlib

/-!
Shallow embedding of the `editr` editor core (`src/unnamed/part_000`, the
`Editor` component and its helper functions).

Modelling conventions:
* JavaScript strings are `List Char`; the partial-application helpers
  `String.prototype.substr` and `Array.prototype.slice` are embedded with
  their exact ECMAScript clamping semantics (`jsSubstr`, `jsSlice`),
  including the behaviour on negative arguments, since the editor calls
  them with indices that can be negative (`cursorIndex - 1`, a `-1`
  returned by `getChildIndex`).
* A DOM element is modelled by `Elem` (its identity, its
  `style.pointerEvents === "none"` flag, and its `getBoundingClientRect()`
  bounds, with rational pixel coordinates) together with, where the tree
  structure matters, the rose tree `DomNode`.
* The component state `State` mirrors the source `State` interface; the
  two element references are modelled by what the code reads from them:
  `textareaElement` by `Option (List Char)` (absent, or present with its
  current DOM `value`), `contentElement` by `Option DomNode`.
* Numbers held in the state (`cursorIndex`) are integers, because the
  code itself can drive `cursorIndex` to `-1` (see `moveCursorWithClick`).
* The only fallible function, `cursorRectForIndex`, returns
  `Except String IRect`; `Except.error` models the thrown exception.
-/

namespace Editr

/-- `IRect`: the bounding-rectangle record, in (rational) pixels. -/
structure IRect where
  left : ℚ
  top : ℚ
  width : ℚ
  height : ℚ
deriving DecidableEq, Repr

/-- `RectZero` from the source. -/
def RectZero : IRect := { left := 0, top := 0, width := 0, height := 0 }

/-- A DOM element as the editor observes it: an identity (so that
`indexOf` comparisons are meaningful), its
`style.pointerEvents === "none"` flag, and its bounding client rect. -/
structure Elem where
  id : ℕ
  pointerEventsNone : Bool
  bounds : IRect
deriving DecidableEq, Repr

/-- `isCursor(elem)`: `elem.style.pointerEvents === "none"`. -/
def isCursor (e : Elem) : Bool := e.pointerEventsNone

/-- A rendered DOM subtree: an element together with its children. -/
inductive DomNode where
  | node (elem : Elem) (children : List DomNode)

mutual
/-- `terminalElements(rootElement)` via `walkTreeTermination`: a node with
no children is itself a terminal; otherwise its children are walked in
document order and their terminals collected. -/
def terminalElements : DomNode → List Elem
  | DomNode.node e [] => [e]
  | DomNode.node _ (c :: cs) => terminalElements c ++ terminalElementsOfList cs

/-- Terminals of a list of sibling subtrees, in order. -/
def terminalElementsOfList : List DomNode → List Elem
  | [] => []
  | c :: cs => terminalElements c ++ terminalElementsOfList cs
end

/-- ECMAScript `String.prototype.substr(start, length)` on `List Char`:
a negative `start` counts from the end (clamped at 0); the result length
is `min (max length 0) (size - intStart)`; empty if that is `≤ 0`. -/
def jsSubstr (s : List Char) (start length : ℤ) : List Char :=
  let size : ℤ := s.length
  let intStart : ℤ := if start < 0 then max (size + start) 0 else start
  let resultLength : ℤ := min (max length 0) (size - intStart)
  if resultLength ≤ 0 then [] else (s.drop intStart.toNat).take resultLength.toNat

/-- `String.prototype.substr(start)` with the length argument omitted:
everything from `start` to the end. -/
def jsSubstrFrom (s : List Char) (start : ℤ) : List Char :=
  jsSubstr s start s.length

/-- ECMAScript index clamping used by `Array.prototype.slice`. -/
def jsSliceClamp (size i : ℤ) : ℤ :=
  if i < 0 then max (size + i) 0 else min i size

/-- `Array.prototype.slice(start, stop)` on lists. -/
def jsSlice {α : Type} (l : List α) (start stop : ℤ) : List α :=
  let size : ℤ := l.length
  let k := jsSliceClamp size start
  let fin := jsSliceClamp size stop
  (l.drop k.toNat).take (fin - k).toNat

/-- `Array.prototype.slice(start)` with the end argument omitted. -/
def jsSliceFrom {α : Type} (l : List α) (start : ℤ) : List α :=
  l.drop (jsSliceClamp l.length start).toNat

/-- `getChildIndex(elem, filter)`: `-1` when the element has no parent;
otherwise the index of `elem` in the parent's children with the filtered
elements removed (`Array.prototype.indexOf` yields `-1` when absent).
The parent is modelled by `Option (List Elem)`: `none` for a detached
node, `some children` for the parent's child list. -/
def getChildIndex (parent : Option (List Elem)) (elem : Elem) : ℤ :=
  match parent with
  | none => -1
  | some children =>
    match (children.filter (fun e => !(isCursor e))).findIdx? (fun e => decide (e = elem)) with
    | some n => (n : ℤ)
    | none => -1

/-- `inserted(array, elem, toIndex)`:
`[...array.slice(0, toIndex), elem, ...array.slice(toIndex)]`. -/
def inserted {α : Type} (array : List α) (elem : α) (toIndex : ℤ) : List α :=
  jsSlice array 0 toIndex ++ elem :: jsSliceFrom array toIndex

/-- `removeCharacterAtIndex(str, index)`:
`str.substr(0, index) + str.substr(index + 1)`. -/
def removeCharacterAtIndex (str : List Char) (index : ℤ) : List Char :=
  jsSubstr str 0 index ++ jsSubstrFrom str (index + 1)

/-- The `State` interface of the `Editor` component. `textareaValue`
models `textareaElement` (absent, or present with its current DOM value);
`contentElement` models the attached content element subtree. -/
structure State where
  content : List Char
  inputText : List Char
  cursorIndex : ℤ
  cursorRect : IRect
  contentElement : Option DomNode
  textareaValue : Option (List Char)
  composition : Bool

/-- `cursorRectForIndex(index, inElement)`. The source first computes
`terminalElements(inElement)`; the spec's contract takes that ordered
content-terminal list as the parameter, as here (the dead
`elems === null` branch of the source is omitted: `terminalElements`
always returns an array). Width of the returned rect is the unused `-1`.
A thrown `cursorIndex が不正` error is `Except.error`; `elems[index]`
is `undefined` for a negative or too-large `index`. -/
def cursorRectForIndex (index : ℤ) (elems : List Elem) : Except String IRect :=
  let width : ℚ := -1
  match elems with
  | [] => Except.ok { left := 0, top := 0, width := width, height := 20 }
  | e :: es =>
    if index = ((e :: es : List Elem).length : ℤ) then
      let rect := ((e :: es).getLast (List.cons_ne_nil e es)).bounds
      Except.ok { left := rect.left + rect.width, top := rect.top, width := width, height := rect.height }
    else
      match (if 0 ≤ index then (e :: es).get? index.toNat else none) with
      | none => Except.error "cursorIndex invalid"
      | some elem =>
        Except.ok { left := elem.bounds.left, top := elem.bounds.top, width := width, height := elem.bounds.height }

/-- `removeCharacterAtCursor(state)`. -/
def removeCharacterAtCursor (state : State) : State :=
  let index := state.cursorIndex - 1
  let content := removeCharacterAtIndex state.content index
  { state with
    content := content
    cursorIndex := max 0 index }

/-- `moveCursorDelta(delta)(state)` (the dead `elems !== null` check of
the source is omitted: `terminalElements` always returns an array). -/
def moveCursorDelta (delta : ℤ) (state : State) : State :=
  match state.contentElement with
  | none => state
  | some el =>
    let elems := terminalElements el
    let maxIndex : ℤ := elems.length
    let index := state.cursorIndex + delta
    { state with cursorIndex := min maxIndex (max 0 index) }

/-- `fixTextarea(state)`: inserts the textarea's current value at the
cursor, advances the cursor by its length, leaves composition, clears
the pending input.  `state.content.split("")` is the list of one-element
strings; `inserted` splices the value in as one run and `join("")`
flattens. -/
def fixTextarea (state : State) : State :=
  match state.textareaValue with
  | none => state
  | some text =>
    { state with
      composition := false
      inputText := []
      cursorIndex := state.cursorIndex + text.length
      content := (inserted (state.content.map (fun c => [c])) text state.cursorIndex).flatten }

/-- `moveCursorWithClick(e)(state)`: the click handler transition. The
captured `e.target` is `target`, its parent's child list is `parent`
(`none` for a detached node), `clientX` is the click's x coordinate.
The `focus()` call is an external side effect with no state content. -/
def moveCursorWithClick (parent : Option (List Elem)) (target : Elem)
    (clientX : ℚ) (state : State) : State :=
  match state.textareaValue with
  | none => state
  | some _ =>
    let bounds := target.bounds
    let isRight : Bool := decide (clientX - bounds.left > bounds.width / 2)
    let cursorIndex := getChildIndex parent target + (if isRight then 1 else 0)
    { state with
      inputText := []
      cursorIndex := cursorIndex }

/-- The keys the `onKeyDown` handler distinguishes. -/
inductive Key where
  | backspace
  | arrowLeft
  | arrowRight
  | other
deriving DecidableEq

/-- `Editor.onKeyDown`: `Backspace` deletes at the cursor, the arrow
keys move the cursor by `±1`, every other key falls through the
`switch`. -/
def onKeyDown (key : Key) (state : State) : State :=
  match key with
  | Key.backspace => removeCharacterAtCursor state
  | Key.arrowLeft => moveCursorDelta (-1) state
  | Key.arrowRight => moveCursorDelta 1 state
  | Key.other => state

/-- `Editor.onChangeTextarea`: `text` is `e.currentTarget.value`.  The
change event originates from the mounted textarea, whose DOM value is
now `text`; when the state holds the element reference its value is
updated accordingly before the handler's branch runs.  While composing
the text is only stored as pending input; otherwise it is committed via
`fixTextarea`. -/
def onChangeTextarea (text : List Char) (state : State) : State :=
  let state := { state with textareaValue := state.textareaValue.map (fun _ => text) }
  if state.composition then
    { state with inputText := text }
  else
    fixTextarea state

/-- `onCompositionStart`: sets the composition flag. -/
def onCompositionStart (state : State) : State :=
  { state with composition := true }

/-- `onCompositionUpdate`: only logs, no state change. -/
def onCompositionUpdate (state : State) : State := state

/-- `Editor.onCompositionEnd`: commits via `fixTextarea` when a
composition is in progress (`fixTextarea` is what resets the flag). -/
def onCompositionEnd (state : State) : State :=
  if state.composition then fixTextarea state else state

/-- The input events of the `Editor` and their payloads: key-down,
input-change (carrying the textarea's new value), the three composition
events, and a click (carrying the captured target, its parent's child
list — `none` when the target is detached — and the click's x
coordinate). -/
inductive Event where
  | keyDown (key : Key)
  | changeTextarea (text : List Char)
  | compositionStart
  | compositionUpdate
  | compositionEnd
  | click (parent : Option (List Elem)) (target : Elem) (clientX : ℚ)

/-- Dispatch of one event to its handler. -/
def handle (e : Event) (state : State) : State :=
  match e with
  | Event.keyDown key => onKeyDown key state
  | Event.changeTextarea text => onChangeTextarea text state
  | Event.compositionStart => onCompositionStart state
  | Event.compositionUpdate => onCompositionUpdate state
  | Event.compositionEnd => onCompositionEnd state
  | Event.click parent target clientX => moveCursorWithClick parent target clientX state

/-- After `setState`, React re-renders the controlled textarea with
`value={state.inputText}`, so a mounted textarea's DOM value equals the
new `inputText`. -/
def renderSync (state : State) : State :=
  { state with textareaValue := state.textareaValue.map (fun _ => state.inputText) }

/-- One step of the event relation: handle the event, then re-render. -/
def step (e : Event) (state : State) : State :=
  renderSync (handle e state)

/-- Run a sequence of events from a state. -/
def run (events : List Event) (state : State) : State :=
  events.foldl (fun s e => step e s) state

/-- The initial `Editor` state: content `"Hello, world"`, empty pending
input, cursor at 0, zero rect, no element references, not composing. -/
def initialState : State :=
  { content := "Hello, world".toList
    inputText := []
    cursorIndex := 0
    cursorRect := RectZero
    contentElement := none
    textareaValue := none
    composition := false }

/-! ### Arithmetic facts about the embedded JavaScript primitives -/

lemma take_min_length {α : Type} (s : List α) (n : ℕ) :
    s.take (min n s.length) = s.take n := by
  rcases le_or_lt n s.length with hle | hlt
  · rw [min_eq_left hle]
  · rw [min_eq_right hlt.le, List.take_length, List.take_of_length_le hlt.le]

lemma jsSubstr_zero (s : List Char) (i : ℤ) (h : 0 ≤ i) :
    jsSubstr s 0 i = s.take i.toNat := by
  have hlen : (0 : ℤ) ≤ (s.length : ℤ) := Int.natCast_nonneg _
  simp only [jsSubstr]
  rw [if_neg (lt_irrefl (0 : ℤ)), sub_zero, max_eq_left h]
  split_ifs with hc
  · rcases (by omega : i = 0 ∨ (s.length : ℤ) = 0) with h0 | h0
    · subst h0; simp
    · have hnil : s = [] := List.length_eq_zero.mp (by exact_mod_cast h0)
      subst hnil; simp
  · rw [Int.toNat_zero, List.drop_zero]
    have htn : (min i (s.length : ℤ)).toNat = min i.toNat s.length := by omega
    rw [htn, take_min_length]

lemma jsSubstr_zero_neg (s : List Char) (i : ℤ) (h : i < 0) :
    jsSubstr s 0 i = [] := by
  have hlen : (0 : ℤ) ≤ (s.length : ℤ) := Int.natCast_nonneg _
  simp only [jsSubstr]
  rw [if_neg (lt_irrefl (0 : ℤ)), sub_zero, max_eq_right h.le]
  rw [if_pos (min_le_left _ _)]

lemma jsSubstrFrom_nonneg (s : List Char) (i : ℤ) (h : 0 ≤ i) :
    jsSubstrFrom s i = s.drop i.toNat := by
  have hlen : (0 : ℤ) ≤ (s.length : ℤ) := Int.natCast_nonneg _
  simp only [jsSubstrFrom, jsSubstr]
  rw [if_neg (not_lt.mpr h), max_eq_left hlen]
  split_ifs with hc
  · exact (List.drop_eq_nil_of_le (by omega)).symm
  · refine List.take_of_length_le ?_
    rw [List.length_drop]
    omega

lemma removeCharacterAtIndex_nonneg (s : List Char) (i : ℤ) (h : 0 ≤ i) :
    removeCharacterAtIndex s i = s.take i.toNat ++ s.drop (i.toNat + 1) := by
  rw [removeCharacterAtIndex, jsSubstr_zero s i h, jsSubstrFrom_nonneg s (i + 1) (by omega)]
  congr 2
  omega

lemma removeCharacterAtIndex_neg_one (s : List Char) :
    removeCharacterAtIndex s (-1) = s := by
  rw [removeCharacterAtIndex, jsSubstr_zero_neg s (-1) (by omega)]
  norm_num
  exact jsSubstrFrom_nonneg s 0 le_rfl

lemma jsSlice_zero {α : Type} (l : List α) (i : ℤ) (h : 0 ≤ i) :
    jsSlice l 0 i = l.take i.toNat := by
  have hlen : (0 : ℤ) ≤ (l.length : ℤ) := Int.natCast_nonneg _
  simp only [jsSlice, jsSliceClamp]
  rw [if_neg (lt_irrefl (0 : ℤ)), if_neg (not_lt.mpr h), min_eq_left hlen]
  rw [sub_zero, Int.toNat_zero, List.drop_zero]
  have htn : (min i (l.length : ℤ)).toNat = min i.toNat l.length := by omega
  rw [htn, take_min_length]

lemma jsSliceFrom_nonneg {α : Type} (l : List α) (i : ℤ) (h : 0 ≤ i) :
    jsSliceFrom l i = l.drop i.toNat := by
  have hlen : (0 : ℤ) ≤ (l.length : ℤ) := Int.natCast_nonneg _
  simp only [jsSliceFrom, jsSliceClamp]
  rw [if_neg (not_lt.mpr h)]
  rcases le_or_lt i (l.length : ℤ) with hle | hlt
  · rw [min_eq_left hle]
  · rw [min_eq_right hlt.le]
    rw [Int.toNat_natCast, List.drop_length]
    exact (List.drop_eq_nil_of_le (by omega)).symm

lemma inserted_nonneg {α : Type} (l : List α) (x : α) (i : ℤ) (h : 0 ≤ i) :
    inserted l x i = l.take i.toNat ++ x :: l.drop i.toNat := by
  rw [inserted, jsSlice_zero l i h, jsSliceFrom_nonneg l i h]

lemma flatten_map_singleton (l : List Char) :
    (l.map (fun c => [c])).flatten = l := by
  induction l with
  | nil => rfl
  | cons c cs ih => simp [ih]

lemma inserted_flatten (c : List Char) (t : List Char) (i : ℤ) (h : 0 ≤ i) :
    (inserted (c.map (fun ch => [ch])) t i).flatten
      = c.take i.toNat ++ t ++ c.drop i.toNat := by
  rw [inserted_nonneg _ _ i h, ← List.map_take, ← List.map_drop]
  rw [List.flatten_append, List.flatten_cons, flatten_map_singleton, flatten_map_singleton]
  rw [List.append_assoc]

/-! ### Behaviour of the state operations -/

lemma fixTextarea_spec (s : State) (t : List Char)
    (hv : s.textareaValue = some t) (h0 : 0 ≤ s.cursorIndex) :
    fixTextarea s =
      { s with
        composition := false
        inputText := []
        cursorIndex := s.cursorIndex + t.length
        content := s.content.take s.cursorIndex.toNat ++ t
                    ++ s.content.drop s.cursorIndex.toNat } := by
  rw [fixTextarea, hv]
  dsimp only
  rw [inserted_flatten s.content t s.cursorIndex h0]

lemma removeCharacterAtCursor_pos (s : State) (h : 1 ≤ s.cursorIndex) :
    removeCharacterAtCursor s =
      { s with
        content := s.content.take (s.cursorIndex - 1).toNat
                    ++ s.content.drop ((s.cursorIndex - 1).toNat + 1)
        cursorIndex := s.cursorIndex - 1 } := by
  rw [removeCharacterAtCursor]
  rw [removeCharacterAtIndex_nonneg s.content (s.cursorIndex - 1) (by omega)]
  rw [max_eq_right (by omega : (0 : ℤ) ≤ s.cursorIndex - 1)]

/-- After `fixTextarea` has spliced `t` in at position `ci`, `t.length`
backspaces peel `t` off again from its right end. -/
lemma deletes_restore (t : List Char) :
    ∀ (c : List Char) (ci : ℕ) (s : State),
      ci ≤ c.length →
      s.content = c.take ci ++ t ++ c.drop ci →
      s.cursorIndex = (ci : ℤ) + t.length →
      (removeCharacterAtCursor^[t.length] s).content = c ∧
      (removeCharacterAtCursor^[t.length] s).cursorIndex = (ci : ℤ) := by
  induction t using List.reverseRecOn with
  | nil =>
    intro c ci s hci hcontent hcursor
    simp only [List.length_nil, Function.iterate_zero, id]
    constructor
    · rw [hcontent]
      simp [List.take_append_drop]
    · rw [hcursor]; simp
  | append_singleton t0 a ih =>
    intro c ci s hci hcontent hcursor
    have hlen : (t0 ++ [a]).length = t0.length + 1 := by simp
    rw [hlen, Function.iterate_succ_apply]
    have htake : (c.take ci).length = ci := by
      rw [List.length_take]; omega
    have hcur1 : 1 ≤ s.cursorIndex := by
      rw [hcursor, hlen]
      have : (0 : ℤ) ≤ (ci : ℤ) := Int.natCast_nonneg _
      omega
    have hstep := removeCharacterAtCursor_pos s hcur1
    -- the deleted position is the last character of the inserted run
    have hidx : (s.cursorIndex - 1).toNat = ci + t0.length := by
      rw [hcursor, hlen]; omega
    have hsplit : s.content = (c.take ci ++ t0) ++ a :: c.drop ci := by
      rw [hcontent]; simp
    have hulen : (c.take ci ++ t0).length = ci + t0.length := by
      simp [htake]
    have hcontent1 : (removeCharacterAtCursor s).content
        = c.take ci ++ t0 ++ c.drop ci := by
      rw [hstep]
      show s.content.take (s.cursorIndex - 1).toNat
            ++ s.content.drop ((s.cursorIndex - 1).toNat + 1)
          = c.take ci ++ t0 ++ c.drop ci
      rw [hidx, hsplit]
      rw [← hulen]
      rw [List.take_left]
      have hdrop : ((c.take ci ++ t0) ++ a :: c.drop ci).drop ((c.take ci ++ t0).length + 1)
          = c.drop ci := by
        have : (c.take ci ++ t0) ++ a :: c.drop ci
            = ((c.take ci ++ t0) ++ [a]) ++ c.drop ci := by simp
        rw [this]
        have hl2 : (c.take ci ++ t0).length + 1 = ((c.take ci ++ t0) ++ [a]).length := by
          simp
          omega
        rw [hl2, List.drop_left]
      rw [hdrop, List.append_assoc]
    have hcursor1 : (removeCharacterAtCursor s).cursorIndex = (ci : ℤ) + t0.length := by
      rw [hstep]
      show s.cursorIndex - 1 = (ci : ℤ) + t0.length
      rw [hcursor, hlen]
      push_cast
      ring
    exact ih c ci (removeCharacterAtCursor s) hci hcontent1 hcursor1

/-! ### C1: insert / delete round trip -/

/-- C1. Round-trip law: from a state whose cursor index lies within the
buffer (`0 ≤ cursorIndex ≤ content.length`) and whose textarea holds
`t`, committing the textarea (`fixTextarea`, which splices `t` in at the
cursor and advances the cursor by `t.length`) followed by `t.length`
backspaces (`removeCharacterAtCursor`) restores the original buffer and
cursor index. -/
theorem insert_then_delete_roundtrip (s : State) (t : List Char)
    (hv : s.textareaValue = some t)
    (h0 : 0 ≤ s.cursorIndex) (h1 : s.cursorIndex ≤ (s.content.length : ℤ)) :
    (removeCharacterAtCursor^[t.length] (fixTextarea s)).content = s.content ∧
    (removeCharacterAtCursor^[t.length] (fixTextarea s)).cursorIndex = s.cursorIndex := by
  have hspec := fixTextarea_spec s t hv h0
  have hcast : ((s.cursorIndex.toNat : ℤ)) = s.cursorIndex := Int.toNat_of_nonneg h0
  have hmain := deletes_restore t s.content s.cursorIndex.toNat (fixTextarea s)
    (by omega)
    (by rw [hspec])
    (by rw [hspec]; show s.cursorIndex + (t.length : ℤ) = _; rw [hcast])
  refine ⟨hmain.1, ?_⟩
  rw [hmain.2, hcast]

/-- Concrete instance of the C1 round trip: content `"abc"`, cursor at
1, textarea text `"xy"`. -/
def c1state : State :=
  { content := "abc".toList
    inputText := []
    cursorIndex := 1
    cursorRect := RectZero
    contentElement := none
    textareaValue := some "xy".toList
    composition := false }

/-- Witness for C1 at `c1state`. -/
theorem insert_then_delete_roundtrip_witness :
    (removeCharacterAtCursor^[("xy".toList).length] (fixTextarea c1state)).content
        = c1state.content ∧
    (removeCharacterAtCursor^[("xy".toList).length] (fixTextarea c1state)).cursorIndex
        = c1state.cursorIndex :=
  insert_then_delete_roundtrip c1state "xy".toList rfl (by decide) (by decide)

/-! ### C2: deleteBackward -/

/-- C2. `removeCharacterAtCursor` (backspace): at `cursorIndex = 0` it
is a no-op on buffer and cursor (and raises nothing — it is a total
function); at `cursorIndex > 0` (within the buffer) it removes exactly
the single buffer unit at `cursorIndex - 1` — the content becomes
`eraseIdx (cursorIndex - 1)` and shrinks by one — and decrements the
cursor. -/
theorem deleteBackward_cases (s : State)
    (h1 : s.cursorIndex ≤ (s.content.length : ℤ)) :
    (s.cursorIndex = 0 →
      (removeCharacterAtCursor s).content = s.content ∧
      (removeCharacterAtCursor s).cursorIndex = 0) ∧
    (0 < s.cursorIndex →
      (removeCharacterAtCursor s).content = s.content.eraseIdx (s.cursorIndex - 1).toNat ∧
      (removeCharacterAtCursor s).content.length + 1 = s.content.length ∧
      (removeCharacterAtCursor s).cursorIndex = s.cursorIndex - 1) := by
  constructor
  · intro hz
    rw [removeCharacterAtCursor, hz]
    norm_num
    exact removeCharacterAtIndex_neg_one s.content
  · intro hpos
    have hstep := removeCharacterAtCursor_pos s (by omega)
    have herase : s.content.eraseIdx (s.cursorIndex - 1).toNat
        = s.content.take (s.cursorIndex - 1).toNat
          ++ s.content.drop ((s.cursorIndex - 1).toNat + 1) :=
      List.eraseIdx_eq_take_drop_succ _ _
    refine ⟨by rw [hstep, herase], ?_, by rw [hstep]⟩
    rw [hstep]
    show (s.content.take (s.cursorIndex - 1).toNat
          ++ s.content.drop ((s.cursorIndex - 1).toNat + 1)).length + 1
        = s.content.length
    rw [List.length_append, List.length_take, List.length_drop]
    omega

/-- Concrete state for the C2 witness: content `"abc"`, cursor at 2. -/
def c2state : State :=
  { content := "abc".toList
    inputText := []
    cursorIndex := 2
    cursorRect := RectZero
    contentElement := none
    textareaValue := none
    composition := false }

/-- Concrete state for the C2 witness, cursor at 0. -/
def c2stateZero : State := { c2state with cursorIndex := 0 }

/-- Witness for C2: the no-op case at cursor 0 and the deletion case at
cursor 2 of `"abc"`. -/
theorem deleteBackward_cases_witness :
    ((removeCharacterAtCursor c2stateZero).content = c2stateZero.content ∧
      (removeCharacterAtCursor c2stateZero).cursorIndex = 0) ∧
    ((removeCharacterAtCursor c2state).content
        = c2state.content.eraseIdx ((c2state.cursorIndex - 1).toNat) ∧
      (removeCharacterAtCursor c2state).content.length + 1 = c2state.content.length ∧
      (removeCharacterAtCursor c2state).cursorIndex = c2state.cursorIndex - 1) :=
  ⟨(deleteBackward_cases c2stateZero (by decide)).1 rfl,
   (deleteBackward_cases c2state (by decide)).2 (by decide)⟩

/-! ### C3: moveCursor composition -/

/-- A content element consisting of a single leaf: its terminal list has
length 1, so the cursor range is `[0, 1]`. -/
def c3elem : Elem :=
  { id := 1, pointerEventsNone := false
    bounds := { left := 0, top := 0, width := 8, height := 16 } }

/-- Concrete state for C3: one terminal, cursor at 0. -/
def c3state : State :=
  { content := "a".toList
    inputText := []
    cursorIndex := 0
    cursorRect := RectZero
    contentElement := some (DomNode.node c3elem [])
    textareaValue := none
    composition := false }

/-- C3 counterexample: with one terminal and the cursor at 0,
`moveCursor(10)` then `moveCursor(-5)` leaves the cursor at 0, but
`moveCursor(10 + -5)` leaves it at 1 — the clamping makes the
composition law fail when the intermediate index leaves `[0, N]`. -/
theorem moveCursor_compose_counterexample :
    (moveCursorDelta (-5) (moveCursorDelta 10 c3state)).cursorIndex
      ≠ (moveCursorDelta (10 + -5) c3state).cursorIndex := by
  simp [moveCursorDelta, terminalElements, c3state]

/-- C3 (amended). The composition law
`moveCursor(a); moveCursor(b) = moveCursor(a+b)` holds whenever the
intermediate index `cursorIndex + a` already lies inside `[0, N]`
(`N` the terminal count), so that the first move is not clamped. -/
theorem moveCursor_compose_of_intermediate_in_range
    (s : State) (el : DomNode) (a b : ℤ)
    (hel : s.contentElement = some el)
    (h0 : 0 ≤ s.cursorIndex + a)
    (h1 : s.cursorIndex + a ≤ ((terminalElements el).length : ℤ)) :
    (moveCursorDelta b (moveCursorDelta a s)).cursorIndex
      = (moveCursorDelta (a + b) s).cursorIndex := by
  simp only [moveCursorDelta, hel]
  omega

/-- Witness for the amended C3 at `c3state` with `a = 1`, `b = -1`. -/
theorem moveCursor_compose_witness :
    (moveCursorDelta (-1) (moveCursorDelta 1 c3state)).cursorIndex
      = (moveCursorDelta (1 + -1) c3state).cursorIndex :=
  moveCursor_compose_of_intermediate_in_range c3state (DomNode.node c3elem []) 1 (-1)
    rfl (by simp [c3state]) (by simp [c3state, terminalElements])

/-! ### C4: composition round trip -/

/-- The event sequence of the composition round trip:
composition start, pending input `"a"`, pending input `"ab"`,
composition end. -/
def c4events : List Event :=
  [Event.compositionStart, Event.changeTextarea "a".toList,
   Event.changeTextarea "ab".toList, Event.compositionEnd]

/-- C4. From any idle state with the textarea mounted and the cursor
inside the buffer, the sequence compositionStart; setPendingInput "a";
setPendingInput "ab"; compositionEnd leaves the buffer equal to the
original with `"ab"` inserted at the pre-composition cursor index,
empty pending input, the cursor advanced by exactly 2, and the
composition flag back to idle. -/
theorem composition_roundtrip (s : State) (v : List Char)
    (hidle : s.composition = false)
    (hv : s.textareaValue = some v)
    (h0 : 0 ≤ s.cursorIndex) (h1 : s.cursorIndex ≤ (s.content.length : ℤ)) :
    (run c4events s).content
        = s.content.take s.cursorIndex.toNat ++ "ab".toList
            ++ s.content.drop s.cursorIndex.toNat ∧
    (run c4events s).inputText = [] ∧
    (run c4events s).cursorIndex = s.cursorIndex + 2 ∧
    (run c4events s).composition = false := by
  have hstep1 : step Event.compositionStart s
      = { s with composition := true, textareaValue := some s.inputText } := by
    simp [step, handle, onCompositionStart, renderSync, hv]
  have hstep2 : step (Event.changeTextarea "a".toList)
        ({ s with composition := true, textareaValue := some s.inputText })
      = { s with
            composition := true
            inputText := "a".toList
            textareaValue := some "a".toList } := by
    simp [step, handle, onChangeTextarea, renderSync]
  have hstep3 : step (Event.changeTextarea "ab".toList)
        ({ s with
            composition := true
            inputText := "a".toList
            textareaValue := some "a".toList })
      = { s with
            composition := true
            inputText := "ab".toList
            textareaValue := some "ab".toList } := by
    simp [step, handle, onChangeTextarea, renderSync]
  have hmid : ({ s with
      composition := true
      inputText := "ab".toList
      textareaValue := some "ab".toList } : State).cursorIndex = s.cursorIndex := rfl
  have hfix := fixTextarea_spec
    ({ s with
        composition := true
        inputText := "ab".toList
        textareaValue := some "ab".toList }) "ab".toList rfl (by rw [hmid]; exact h0)
  have hstep4 : step Event.compositionEnd
        ({ s with
            composition := true
            inputText := "ab".toList
            textareaValue := some "ab".toList })
      = { s with
            composition := false
            inputText := []
            textareaValue := some []
            cursorIndex := s.cursorIndex + ("ab".toList.length : ℤ)
            content := s.content.take s.cursorIndex.toNat ++ "ab".toList
                        ++ s.content.drop s.cursorIndex.toNat } := by
    simp only [step, handle, onCompositionEnd, if_pos rfl, hfix, renderSync]
    rfl
  have hrun : run c4events s
      = step Event.compositionEnd (step (Event.changeTextarea "ab".toList)
          (step (Event.changeTextarea "a".toList) (step Event.compositionStart s))) := rfl
  rw [hrun, hstep1, hstep2, hstep3, hstep4]
  refine ⟨rfl, rfl, ?_, rfl⟩
  show s.cursorIndex + ("ab".toList.length : ℤ) = s.cursorIndex + 2
  norm_num

/-- Concrete idle state for the C4 witness: content `"Hello, world"`,
cursor at 5, mounted empty textarea. -/
def c4state : State :=
  { content := "Hello, world".toList
    inputText := []
    cursorIndex := 5
    cursorRect := RectZero
    contentElement := none
    textareaValue := some []
    composition := false }

/-- Witness for C4 at `c4state`. -/
theorem composition_roundtrip_witness :
    (run c4events c4state).content
        = c4state.content.take ((5 : ℤ)).toNat ++ "ab".toList
            ++ c4state.content.drop ((5 : ℤ)).toNat ∧
    (run c4events c4state).inputText = [] ∧
    (run c4events c4state).cursorIndex = (5 : ℤ) + 2 ∧
    (run c4events c4state).composition = false :=
  composition_roundtrip c4state [] rfl rfl (by decide) (by decide)

/-! ### C5: the rectForIndex contract -/

/-- C5. Contract of `cursorRectForIndex` over the content-terminal list
(whose rects have the non-negative heights `getBoundingClientRect`
produces): on the empty list, any index yields the synthetic rectangle
at the content origin with the default line height 20; at
`index = length` (non-empty list) it yields the rectangle whose `left`
is the last terminal's right edge (`left + width`) with that terminal's
top and height; at `index < length` it yields terminal `index`'s own
left/top/height; consequently for `N > 0` the rect at `N` has its
`left` equal to the rect at `N - 1`'s `left` plus the last terminal's
width (its right edge); and every index in `[0, N]` succeeds with a
rectangle of non-negative height. -/
theorem rectForIndex_contract (elems : List Elem)
    (hh : ∀ e ∈ elems, 0 ≤ e.bounds.height) :
    (∀ i : ℤ, elems = [] →
      cursorRectForIndex i elems
        = Except.ok { left := 0, top := 0, width := -1, height := 20 }) ∧
    (∀ hne : elems ≠ [],
      cursorRectForIndex (elems.length) elems
        = Except.ok { left := (elems.getLast hne).bounds.left
                        + (elems.getLast hne).bounds.width
                      top := (elems.getLast hne).bounds.top
                      width := -1
                      height := (elems.getLast hne).bounds.height }) ∧
    (∀ (i : ℕ) (hlt : i < elems.length),
      cursorRectForIndex (i : ℤ) elems
        = Except.ok { left := (elems.get ⟨i, hlt⟩).bounds.left
                      top := (elems.get ⟨i, hlt⟩).bounds.top
                      width := -1
                      height := (elems.get ⟨i, hlt⟩).bounds.height }) ∧
    (∀ (hne : elems ≠ []) (rN rN1 : IRect),
      cursorRectForIndex (elems.length) elems = Except.ok rN →
      cursorRectForIndex ((elems.length : ℤ) - 1) elems = Except.ok rN1 →
      rN.left = rN1.left + (elems.getLast hne).bounds.width) ∧
    (∀ i : ℤ, 0 ≤ i → i ≤ (elems.length : ℤ) →
      ∃ r : IRect, cursorRectForIndex i elems = Except.ok r ∧ 0 ≤ r.height) := by
  have hempty : ∀ i : ℤ, elems = [] →
      cursorRectForIndex i elems
        = Except.ok { left := 0, top := 0, width := -1, height := 20 } := by
    intro i he
    subst he
    rfl
  have hend : ∀ hne : elems ≠ [],
      cursorRectForIndex (elems.length) elems
        = Except.ok { left := (elems.getLast hne).bounds.left
                        + (elems.getLast hne).bounds.width
                      top := (elems.getLast hne).bounds.top
                      width := -1
                      height := (elems.getLast hne).bounds.height } := by
    intro hne
    match elems, hne with
    | e :: es, _ =>
      simp only [cursorRectForIndex]
      split_ifs with hc
      · rfl
      · exact absurd trivial hc
  have hmid : ∀ (i : ℕ) (hlt : i < elems.length),
      cursorRectForIndex (i : ℤ) elems
        = Except.ok { left := (elems.get ⟨i, hlt⟩).bounds.left
                      top := (elems.get ⟨i, hlt⟩).bounds.top
                      width := -1
                      height := (elems.get ⟨i, hlt⟩).bounds.height } := by
    intro i hlt
    match elems, hlt with
    | e :: es, hlt =>
      have hne2 : ((i : ℤ)) ≠ (((e :: es : List Elem).length : ℤ)) := by
        have := List.length_pos.mpr (List.cons_ne_nil e es)
        omega
      have hge : (0 : ℤ) ≤ (i : ℤ) := Int.natCast_nonneg _
      have hget : (e :: es).get? ((i : ℤ)).toNat = some ((e :: es).get ⟨i, hlt⟩) := by
        rw [Int.toNat_natCast]
        exact List.get?_eq_get hlt
      simp only [cursorRectForIndex, if_neg hne2, if_pos hge, hget]
  refine ⟨hempty, hend, hmid, ?_, ?_⟩
  · intro hne rN rN1 hN hN1
    match elems, hne with
    | e :: es, hne =>
      have hlast : (e :: es).getLast hne
          = (e :: es).get ⟨(e :: es).length - 1, by simp⟩ := by
        rw [List.getLast_eq_getElem, List.get_eq_getElem]
      rw [hend hne] at hN
      have hlt : (e :: es).length - 1 < (e :: es).length := by simp
      have hcast : (((e :: es : List Elem).length : ℤ)) - 1
          = (((e :: es).length - 1 : ℕ) : ℤ) := by
        have := List.length_pos.mpr hne
        omega
      rw [hcast] at hN1
      rw [hmid ((e :: es).length - 1) hlt] at hN1
      have hrN := Except.ok.inj hN
      have hrN1 := Except.ok.inj hN1
      rw [← hrN, ← hrN1]
      rw [hlast]
  · intro i hge hle
    rcases eq_or_lt_of_le hle with heq | hlt
    · match elems with
      | [] =>
        exact ⟨_, hempty i rfl, by norm_num⟩
      | e :: es =>
        have hne : (e :: es : List Elem) ≠ [] := List.cons_ne_nil e es
        refine ⟨_, by rw [heq]; exact hend hne, ?_⟩
        exact hh _ (List.getLast_mem hne)
    · have hlt2 : i.toNat < elems.length := by omega
      have hi : (i.toNat : ℤ) = i := Int.toNat_of_nonneg hge
      refine ⟨_, by rw [← hi]; exact hmid i.toNat hlt2, ?_⟩
      exact hh _ (List.get_mem elems i.toNat hlt2)

/-- Terminals for the C5 witness. -/
def c5elemA : Elem :=
  { id := 1, pointerEventsNone := false
    bounds := { left := 3, top := 4, width := 5, height := 6 } }

/-- Second terminal for the C5 witness. -/
def c5elemB : Elem :=
  { id := 2, pointerEventsNone := false
    bounds := { left := 8, top := 4, width := 2, height := 7 } }

/-- Witness for C5: the empty-list synthetic rectangle, and the
end-of-content rectangle over `[c5elemA, c5elemB]`. -/
theorem rectForIndex_contract_witness :
    (cursorRectForIndex 0 ([] : List Elem)
      = Except.ok { left := 0, top := 0, width := -1, height := 20 }) ∧
    (cursorRectForIndex (([c5elemA, c5elemB] : List Elem).length) [c5elemA, c5elemB]
      = Except.ok { left := c5elemB.bounds.left + c5elemB.bounds.width
                    top := c5elemB.bounds.top
                    width := -1
                    height := c5elemB.bounds.height }) :=
  ⟨(rectForIndex_contract [] (by simp)).1 0 rfl,
   (rectForIndex_contract [c5elemA, c5elemB]
      (by
        intro e he
        fin_cases he
        · norm_num [c5elemA]
        · norm_num [c5elemB])).2.1 (by simp)⟩

/-! ### C6: when rectForIndex fails -/

/-- Whether a `cursorRectForIndex` result is the thrown
`cursorIndex が不正` error. -/
def resultIsError (r : Except String IRect) : Bool :=
  match r with
  | Except.error _ => true
  | Except.ok _ => false

/-- C6 counterexample: at index `-1` (negative) over the empty
content-terminal list, `cursorRectForIndex` does not fail — it returns
the synthetic rectangle — so "fails exactly when the index is negative
or exceeds the length" is false. -/
theorem rectForIndex_error_counterexample :
    ((-1 : ℤ) < 0) ∧
    resultIsError (cursorRectForIndex (-1) ([] : List Elem)) = false :=
  ⟨by norm_num, rfl⟩

/-- C6 (amended). `cursorRectForIndex` fails exactly when the
content-terminal list is non-empty and the index is negative or exceeds
the list's length; on the empty list it never fails (every index gets
the synthetic rectangle), and for every index in `[0, length]` it does
not fail. -/
theorem rectForIndex_error_iff (i : ℤ) (elems : List Elem) :
    resultIsError (cursorRectForIndex i elems) = true
      ↔ elems ≠ [] ∧ (i < 0 ∨ (elems.length : ℤ) < i) := by
  match elems with
  | [] =>
    simp [cursorRectForIndex, resultIsError]
  | e :: es =>
    have hne : (e :: es : List Elem) ≠ [] := List.cons_ne_nil e es
    have hpos : 0 < (e :: es).length := List.length_pos.mpr hne
    simp only [cursorRectForIndex]
    split_ifs with hc hge
    · constructor
      · intro hfalse; exact Bool.noConfusion hfalse
      · intro hcon
        obtain ⟨-, hor⟩ := hcon
        omega
    · by_cases hlt : i.toNat < (e :: es).length
      · rw [List.get?_eq_get hlt]
        constructor
        · intro hfalse; exact Bool.noConfusion hfalse
        · intro hcon
          obtain ⟨-, hor⟩ := hcon
          omega
      · have hnone : (e :: es).get? i.toNat = none := by
          rw [List.get?_eq_none]
          omega
        rw [hnone]
        constructor
        · intro _
          exact ⟨hne, by omega⟩
        · intro _
          rfl
    · constructor
      · intro _
        exact ⟨hne, by omega⟩
      · intro _
        rfl

/-- Element for the C6 witness. -/
def c6elem : Elem :=
  { id := 7, pointerEventsNone := false
    bounds := { left := 1, top := 2, width := 3, height := 4 } }

/-- Witness for the amended C6: over the one-element list, index 2
exceeds the length and does fail. -/
theorem rectForIndex_error_iff_witness :
    resultIsError (cursorRectForIndex 2 [c6elem]) = true :=
  (rectForIndex_error_iff 2 [c6elem]).mpr ⟨by simp, by norm_num⟩

/-! ### C7: click hit-testing -/

/-- C7. Click hit-testing: when the clicked content terminal sits at
zero-based position `p` among its content siblings (the caret overlay
excluded), i.e. `getChildIndex` resolves it to `p`, and the textarea is
mounted, a click whose x offset falls strictly inside the left half of
the node's bounding box sets the cursor index to `p`, and one strictly
inside the right half sets it to `p + 1`. -/
theorem click_sets_index_by_half (s : State) (v : List Char)
    (children : List Elem) (target : Elem) (p : ℕ) (clientX : ℚ)
    (hv : s.textareaValue = some v)
    (hp : getChildIndex (some children) target = (p : ℤ)) :
    (clientX - target.bounds.left < target.bounds.width / 2 →
      (moveCursorWithClick (some children) target clientX s).cursorIndex = (p : ℤ)) ∧
    (target.bounds.width / 2 < clientX - target.bounds.left →
      (moveCursorWithClick (some children) target clientX s).cursorIndex = (p : ℤ) + 1) := by
  constructor
  · intro hleft
    rw [moveCursorWithClick, hv]
    have hright : decide (clientX - target.bounds.left > target.bounds.width / 2) = false := by
      rw [decide_eq_false_iff_not]
      intro hgt
      exact absurd (lt_trans hleft hgt) (lt_irrefl _)
    dsimp only
    rw [hright, hp]
    norm_num
  · intro hgt
    rw [moveCursorWithClick, hv]
    have hright : decide (clientX - target.bounds.left > target.bounds.width / 2) = true := by
      rw [decide_eq_true_eq]
      exact hgt
    dsimp only
    rw [hright, hp]
    norm_num

/-- Target for the C7 witness: bounds `{left := 100, width := 20}`. -/
def c7target : Elem :=
  { id := 1, pointerEventsNone := false
    bounds := { left := 100, top := 0, width := 20, height := 10 } }

/-- State for the C7 witness: mounted empty textarea. -/
def c7state : State :=
  { content := "a".toList
    inputText := []
    cursorIndex := 0
    cursorRect := RectZero
    contentElement := none
    textareaValue := some []
    composition := false }

/-- Witness for C7: a click at `x = 105` (left half) yields index 0, a
click at `x = 115` (right half) yields 1 for the sole child. -/
theorem click_sets_index_by_half_witness :
    (moveCursorWithClick (some [c7target]) c7target 105 c7state).cursorIndex = ((0 : ℕ) : ℤ) ∧
    (moveCursorWithClick (some [c7target]) c7target 115 c7state).cursorIndex = ((0 : ℕ) : ℤ) + 1 :=
  ⟨(click_sets_index_by_half c7state [] [c7target] c7target 0 105 rfl
      (by norm_num [getChildIndex, isCursor, c7target, List.findIdx?])).1
      (by norm_num [c7target]),
   (click_sets_index_by_half c7state [] [c7target] c7target 0 115 rfl
      (by norm_num [getChildIndex, isCursor, c7target, List.findIdx?])).2
      (by norm_num [c7target])⟩

/-! ### C8: click on a detached node -/

/-- Target for C8: a detached node (no parent). -/
def c8target : Elem :=
  { id := 9, pointerEventsNone := false
    bounds := { left := 100, top := 0, width := 20, height := 10 } }

/-- State for C8: cursor at 3, mounted textarea. -/
def c8state : State :=
  { content := "abc".toList
    inputText := []
    cursorIndex := 3
    cursorRect := RectZero
    contentElement := none
    textareaValue := some []
    composition := false }

/-- C8. For a click on a node with no resolvable parent, position
resolution does yield "not found" (`getChildIndex = -1`), but the click
is NOT ignored: `moveCursorWithClick` writes `-1 + 0 = -1` into the
cursor index (left-half click), moving it away from its previous value
3 — the `-1` sentinel is never checked, contradicting the claim that
the state is left unchanged (and producing a cursor index the code
itself rejects as invalid in `cursorRectForIndex`). -/
theorem detached_click_changes_state :
    getChildIndex none c8target = -1 ∧
    (moveCursorWithClick none c8target 105 c8state).cursorIndex = -1 ∧
    c8state.cursorIndex = 3 := by
  refine ⟨rfl, ?_, rfl⟩
  rw [moveCursorWithClick]
  have hright : decide ((105 : ℚ) - c8target.bounds.left > c8target.bounds.width / 2) = false := by
    rw [decide_eq_false_iff_not]
    norm_num [c8target]
  dsimp only
  rw [hright]
  rfl

/-! ### C10: frame property of the click transition -/

/-- C10. The click transition only ever touches the pending-input text
(cleared, when the textarea is mounted) and the cursor index: buffer
content, composition flag, element references and the cached cursor
rect are all unchanged — in particular a click during an active
composition keeps the machine in Composing while discarding the pending
text. -/
theorem click_frame (parent : Option (List Elem)) (target : Elem)
    (clientX : ℚ) (s : State) :
    (moveCursorWithClick parent target clientX s).content = s.content ∧
    (moveCursorWithClick parent target clientX s).composition = s.composition ∧
    (moveCursorWithClick parent target clientX s).contentElement = s.contentElement ∧
    (moveCursorWithClick parent target clientX s).cursorRect = s.cursorRect ∧
    (moveCursorWithClick parent target clientX s).textareaValue = s.textareaValue ∧
    (∀ v : List Char, s.textareaValue = some v →
      (moveCursorWithClick parent target clientX s).inputText = []) := by
  match hv : s.textareaValue with
  | none =>
    rw [moveCursorWithClick, hv]
    exact ⟨rfl, rfl, rfl, rfl, hv, fun v hvv => by simp [hv] at hvv⟩
  | some v0 =>
    rw [moveCursorWithClick, hv]
    exact ⟨rfl, rfl, rfl, rfl, rfl, fun v hvv => rfl⟩

/-- State for the C10 witness: composing, with pending text. -/
def c10state : State :=
  { content := "abc".toList
    inputText := "xy".toList
    cursorIndex := 1
    cursorRect := RectZero
    contentElement := none
    textareaValue := some "xy".toList
    composition := true }

/-- Witness for C10: a click during an active composition leaves the
buffer and the Composing flag alone and empties the pending input. -/
theorem click_frame_witness :
    (moveCursorWithClick none c8target 105 c10state).content = c10state.content ∧
    (moveCursorWithClick none c8target 105 c10state).composition = c10state.composition ∧
    (moveCursorWithClick none c8target 105 c10state).inputText = [] :=
  ⟨(click_frame none c8target 105 c10state).1,
   (click_frame none c8target 105 c10state).2.1,
   (click_frame none c8target 105 c10state).2.2.2.2.2 "xy".toList rfl⟩

/-! ### C9: pending input only while composing -/

/-- The C9 invariant: pending input is non-empty only while composing. -/
def PendingOnlyWhileComposing (s : State) : Prop :=
  s.inputText ≠ [] → s.composition = true

lemma fixTextarea_preserves (s : State) (h : PendingOnlyWhileComposing s) :
    PendingOnlyWhileComposing (fixTextarea s) := by
  rw [fixTextarea]
  match hv : s.textareaValue with
  | none => exact h
  | some t =>
    intro hne
    exact absurd rfl hne

lemma handle_preserves (e : Event) (s : State) (h : PendingOnlyWhileComposing s) :
    PendingOnlyWhileComposing (handle e s) := by
  match e with
  | Event.keyDown key =>
    match key with
    | Key.backspace => exact h
    | Key.arrowLeft =>
      show PendingOnlyWhileComposing (moveCursorDelta (-1) s)
      rw [moveCursorDelta]
      match s.contentElement with
      | none => exact h
      | some el => exact h
    | Key.arrowRight =>
      show PendingOnlyWhileComposing (moveCursorDelta 1 s)
      rw [moveCursorDelta]
      match s.contentElement with
      | none => exact h
      | some el => exact h
    | Key.other => exact h
  | Event.changeTextarea text =>
    show PendingOnlyWhileComposing (onChangeTextarea text s)
    rw [onChangeTextarea]
    dsimp only
    split_ifs with hcomp
    · intro _
      exact hcomp
    · exact fixTextarea_preserves _ (fun hne => h hne)
  | Event.compositionStart =>
    intro _
    rfl
  | Event.compositionUpdate => exact h
  | Event.compositionEnd =>
    show PendingOnlyWhileComposing (onCompositionEnd s)
    rw [onCompositionEnd]
    split_ifs with hcomp
    · exact fixTextarea_preserves s h
    · exact h
  | Event.click parent target clientX =>
    show PendingOnlyWhileComposing (moveCursorWithClick parent target clientX s)
    rw [moveCursorWithClick]
    match s.textareaValue with
    | none => exact h
    | some v =>
      intro hne
      exact absurd rfl hne

lemma step_preserves (e : Event) (s : State) (h : PendingOnlyWhileComposing s) :
    PendingOnlyWhileComposing (step e s) :=
  handle_preserves e s h

lemma run_preserves (events : List Event) :
    ∀ s : State, PendingOnlyWhileComposing s → PendingOnlyWhileComposing (run events s) := by
  induction events with
  | nil => intro s h; exact h
  | cons e rest ih =>
    intro s h
    exact ih (step e s) (step_preserves e s h)

/-- C9. In every state reachable by the event step relation (keystroke,
input-change, composition start/update/end, click) from the initial
editor state, non-empty pending input implies the composition flag is
set (equivalently, pending input is empty whenever idle); moreover an
input-change during a composition session never commits — the buffer is
untouched and the machine stays Composing — while composition end with
a mounted textarea commits exactly once: it splices the textarea text
into the buffer, clears the pending input and returns to idle. -/
theorem pending_only_while_composing :
    (∀ events : List Event,
      (run events initialState).inputText ≠ [] →
      (run events initialState).composition = true) ∧
    (∀ (s : State) (text : List Char), s.composition = true →
      (onChangeTextarea text s).content = s.content ∧
      (onChangeTextarea text s).composition = true ∧
      (onChangeTextarea text s).inputText = text) ∧
    (∀ (s : State) (v : List Char), s.composition = true →
      s.textareaValue = some v → 0 ≤ s.cursorIndex →
      (onCompositionEnd s).composition = false ∧
      (onCompositionEnd s).inputText = [] ∧
      (onCompositionEnd s).content
        = s.content.take s.cursorIndex.toNat ++ v
            ++ s.content.drop s.cursorIndex.toNat) := by
  refine ⟨?_, ?_, ?_⟩
  · intro events
    exact run_preserves events initialState (fun hne => absurd rfl hne)
  · intro s text hcomp
    rw [onChangeTextarea]
    dsimp only
    rw [if_pos hcomp]
    exact ⟨rfl, hcomp, rfl⟩
  · intro s v hcomp hv h0
    rw [onCompositionEnd, if_pos hcomp]
    rw [fixTextarea_spec s v hv h0]
    exact ⟨rfl, rfl, rfl⟩

/-- Composing state for the C9 witness. -/
def c9state : State :=
  { content := "abc".toList
    inputText := []
    cursorIndex := 1
    cursorRect := RectZero
    contentElement := none
    textareaValue := some "xy".toList
    composition := true }

/-- Witness for C9: after compositionStart and an input-change the
reachable state is composing; a change during composition leaves the
buffer alone; composition end commits, clears and goes idle. -/
theorem pending_only_while_composing_witness :
    (run [Event.compositionStart, Event.changeTextarea "q".toList]
        initialState).composition = true ∧
    ((onChangeTextarea "q".toList c9state).content = c9state.content ∧
      (onChangeTextarea "q".toList c9state).composition = true) ∧
    ((onCompositionEnd c9state).composition = false ∧
      (onCompositionEnd c9state).inputText = [] ∧
      (onCompositionEnd c9state).content
        = c9state.content.take ((1 : ℤ)).toNat ++ "xy".toList
            ++ c9state.content.drop ((1 : ℤ)).toNat) :=
  ⟨pending_only_while_composing.1
      [Event.compositionStart, Event.changeTextarea "q".toList] (by decide),
   ⟨(pending_only_while_composing.2.1 c9state "q".toList rfl).1,
    (pending_only_while_composing.2.1 c9state "q".toList rfl).2.1⟩,
   pending_only_while_composing.2.2 c9state "xy".toList rfl rfl (by decide)⟩

end Editr
